import Mathlib

/-!
Shallow embedding of the universal content-extraction subsystem of
`server_v6.js` (class `UniversalWebExtractor`), together with proofs of the
specification claims about it.

Modelling conventions:
* JavaScript strings are Lean `String`s and all string manipulation is done
  on the underlying `List Char` so that every definition reduces in the
  kernel.
* External libraries (axios, cloudscraper, puppeteer, playwright, cheerio,
  the WHATWG URL parser) are modelled at their call boundary: fetch calls
  are an oracle `Env.fetch`, the parsed cheerio document is an abstract
  `Doc` supplying the result of each selector query, and URL parsing /
  resolution are small explicit models.
* The in-memory `Map` caches are association lists where insertion
  prepends, matching `Map.get`/`Map.set` observational behaviour.
-/

namespace LinkMagico

/-- JavaScript regex `\s` / `trim` whitespace, restricted to the ASCII
whitespace characters that occur in the texts handled here. -/
def isJsSpace (c : Char) : Bool :=
  c = ' ' || c = '\t' || c = '\n' || c = '\r'

/-- Model of JavaScript `String.prototype.trim`. -/
def jsTrim (s : String) : String :=
  ⟨((s.data.dropWhile isJsSpace).reverse.dropWhile isJsSpace).reverse⟩

/-- Model of JavaScript `String.prototype.toLowerCase` (ASCII range). -/
def jsLower (s : String) : String :=
  ⟨s.data.map Char.toLower⟩

/-- Model of JavaScript `String.prototype.includes`: `h` contains `n` as a
contiguous substring. -/
def containsSubstr (h n : String) : Bool :=
  (List.range (h.data.length + 1)).any (fun i => n.data.isPrefixOf (h.data.drop i))

/-- Model of JavaScript `String.prototype.substring(0, n)`. -/
def jsSubstring (s : String) (n : Nat) : String :=
  ⟨s.data.take n⟩

/-- Model of JavaScript `String.prototype.startsWith`. -/
def jsStartsWith (s p : String) : Bool :=
  p.data.isPrefixOf s.data

/-- Model of `new URL(url).hostname` (the WHATWG URL parser, an external
platform API).  For `http://` / `https://` URLs it returns the authority up
to the first `/`, `?`, `#` or port separator; such a URL with an empty host
is invalid.  Any other string of the shape `scheme:rest` with an
alphabetic-initial scheme parses with an empty hostname; everything else is
invalid (`new URL` throws).  Userinfo components are not modelled. -/
def parseHostname (url : String) : Option String :=
  if jsStartsWith url "http://" || jsStartsWith url "https://" then
    let after := if jsStartsWith url "https://" then url.data.drop 8 else url.data.drop 7
    let auth := after.takeWhile (fun c => c ≠ '/' && c ≠ '?' && c ≠ '#')
    let host := auth.takeWhile (fun c => c ≠ ':')
    if host.isEmpty then none else some ⟨host⟩
  else
    let scheme := url.data.takeWhile (fun c => c ≠ ':')
    if scheme.length < url.data.length && !scheme.isEmpty &&
        scheme.all (fun c => c.isAlphanum || c = '+' || c = '-' || c = '.') &&
        (scheme.head?.elim false Char.isAlpha) then
      some ""
    else
      none

/-- `jsHeavySites` table of `detectBestMethod`. -/
def jsHeavySites : List String :=
  ["facebook.com", "instagram.com", "linkedin.com", "twitter.com", "x.com",
   "tiktok.com", "youtube.com", "pinterest.com", "snapchat.com"]

/-- `cloudflareSites` table of `detectBestMethod`. -/
def cloudflareSites : List String :=
  ["shopify.com", "wordpress.com", "wix.com", "squarespace.com"]

/-- `botBlockingSites` table of `detectBestMethod`. -/
def botBlockingSites : List String :=
  ["amazon.com", "ebay.com", "mercadolivre.com", "aliexpress.com",
   "booking.com", "airbnb.com"]

/-- `UniversalWebExtractor.detectBestMethod`: lowercase the hostname of the
URL and test it against the three static substring tables in priority
order.  `none` models the `TypeError` thrown by `new URL` on an invalid
URL. -/
def detectBestMethod (url : String) : Option String :=
  (parseHostname url).map fun h =>
    let domain := jsLower h
    if jsHeavySites.any (fun site => containsSubstr domain site) then "playwright"
    else if cloudflareSites.any (fun site => containsSubstr domain site) then "cloudscraper"
    else if botBlockingSites.any (fun site => containsSubstr domain site) then "puppeteer"
    else "axios"

/-! ## The price regex

`processExtractedHTML` matches element text against the JavaScript regex
`R\$\s*\d{1,3}(?:[.,]\d{3})*(?:[.,]\d{2})?|USD\s*\d+[.,]?\d*|\$\s*\d+[.,]?\d*`
via `String.prototype.match` (first, i.e. leftmost, match; alternatives
tried in order at each position).  Because every part after the mandatory
digits is optional, the greedy JavaScript semantics never backtracks on
this pattern, so a direct greedy reading is exact. -/

/-- Greedily take up to `n` leading digits. -/
def takeDigitsUpTo : Nat → List Char → List Char × List Char
  | 0, cs => ([], cs)
  | _ + 1, [] => ([], [])
  | n + 1, c :: cs =>
    if c.isDigit then
      let (a, b) := takeDigitsUpTo n cs
      (c :: a, b)
    else
      ([], c :: cs)

/-- Greedy `(?:[.,]\d{3})*`: thousands groups. -/
def milGroups : List Char → List Char × List Char
  | s :: d1 :: d2 :: d3 :: rest =>
    if (s = '.' || s = ',') && d1.isDigit && d2.isDigit && d3.isDigit then
      let (a, b) := milGroups rest
      (s :: d1 :: d2 :: d3 :: a, b)
    else
      ([], s :: d1 :: d2 :: d3 :: rest)
  | cs => ([], cs)

/-- Greedy `(?:[.,]\d{2})?`: an optional decimal tail. -/
def decTail : List Char → List Char
  | s :: d1 :: d2 :: _ =>
    if (s = '.' || s = ',') && d1.isDigit && d2.isDigit then [s, d1, d2] else []
  | _ => []

/-- Alternative `R\$\s*\d{1,3}(?:[.,]\d{3})*(?:[.,]\d{2})?` matched at the
head of the character list. -/
def matchRealAlt : List Char → Option (List Char)
  | 'R' :: '$' :: rest =>
    let (sp, r1) := rest.span isJsSpace
    let (ds, r2) := takeDigitsUpTo 3 r1
    if ds.isEmpty then none
    else
      let (gs, r3) := milGroups r2
      some ('R' :: '$' :: (sp ++ ds ++ gs ++ decTail r3))
  | _ => none

/-- Tail `\s*\d+[.,]?\d*` shared by the `USD` and `$` alternatives. -/
def matchAmountTail (cs : List Char) : Option (List Char) :=
  let (sp, r1) := cs.span isJsSpace
  let (ds, r2) := r1.span Char.isDigit
  if ds.isEmpty then none
  else
    let (sep, r3) :=
      match r2 with
      | c :: r => if c = '.' || c = ',' then ([c], r) else ([], c :: r)
      | [] => ([], ([] : List Char))
    let (ds2, _) := r3.span Char.isDigit
    some (sp ++ ds ++ sep ++ ds2)

/-- Alternative `USD\s*\d+[.,]?\d*` matched at the head. -/
def matchUsdAlt : List Char → Option (List Char)
  | 'U' :: 'S' :: 'D' :: rest => (matchAmountTail rest).map (['U', 'S', 'D'] ++ ·)
  | _ => none

/-- Alternative `\$\s*\d+[.,]?\d*` matched at the head. -/
def matchDollarAlt : List Char → Option (List Char)
  | '$' :: rest => (matchAmountTail rest).map ('$' :: ·)
  | _ => none

/-- One attempt of the full price pattern at the head of the list:
alternatives in regex order. -/
def matchPriceAt (cs : List Char) : Option (List Char) :=
  (matchRealAlt cs).orElse fun _ => (matchUsdAlt cs).orElse fun _ => matchDollarAlt cs

/-- Leftmost match of the price pattern, as `text.match(...)` returns it. -/
def firstPriceMatchAux : List Char → Option (List Char)
  | [] => none
  | c :: rest =>
    match matchPriceAt (c :: rest) with
    | some m => some m
    | none => firstPriceMatchAux rest

/-- `text.match(priceRegex)` reduced to its matched substring (`[0]`). -/
def firstPriceMatch (s : String) : Option String :=
  (firstPriceMatchAux s.data).map fun l => ⟨l⟩

/-! ## The cheerio document model

cheerio (`$ = cheerio.load(html)`) is an external library; a loaded
document is modelled by the results it hands back to the extractor: the
list of elements matched by each selector string (in document order), plus
the outcome of the two raw-HTML regex scans (`html.match(emailRegex)` /
`html.match(phoneRegex)`) that `processExtractedHTML` performs directly on
the input text. -/

/-- A matched element, as the extractor observes it: its text content, its
attributes, and — for video elements — the `src` attribute of a nested
`<source>` child (`$(video).find('source').attr('src')`). -/
structure Element where
  text : String
  attr : String → Option String
  sourceSrc : Option String

/-- A loaded document. -/
structure Doc where
  query : String → List Element
  emailMatch : Option String
  phoneMatch : Option String

/-- An entry of the `images` list: `{src, alt}`. -/
structure Image where
  src : String
  alt : String
deriving Repr, DecidableEq

/-- The five named meta tags collected into `extractedData.metadata`. -/
structure Metadata where
  ogTitle : String
  ogDescription : String
  ogImage : String
  keywords : String
  author : String
deriving Repr, DecidableEq

/-- The normalized extraction output (`extractedData`).  The JavaScript
`contact` object with optional `email`/`phone` keys is flattened into two
`Option` fields. -/
structure ContentRecord where
  url : String
  title : String
  description : String
  price : String
  benefits : List String
  testimonials : List String
  cta : String
  images : List Image
  videos : List String
  contactEmail : Option String
  contactPhone : Option String
  metadata : Metadata
  extractionMethod : String
deriving Repr, DecidableEq

/-- JavaScript `element.attr('content') || element.text()`: the attribute
when present and truthy (non-empty), otherwise the text. -/
def attrOrText (e : Element) : String :=
  match e.attr "content" with
  | some c => if c = "" then e.text else c
  | none => e.text

/-- The shared shape of the title / description / CTA loops: for each
selector take the first matched element, accept its candidate string when
`ok` holds (then stop), otherwise move to the next selector; default `""`. -/
def extractFirst (doc : Doc) (cand : Element → String) (ok : String → Bool)
    (post : String → String) : List String → String
  | [] => ""
  | sel :: rest =>
    match (doc.query sel).head? with
    | some e =>
      let v := cand e
      if ok v then post v else extractFirst doc cand ok post rest
    | none => extractFirst doc cand ok post rest

/-- The title acceptance test:
`title && title.trim().length > 5 && !title.toLowerCase().includes('error')`. -/
def okTitle (v : String) : Bool :=
  v != "" && decide (5 < (jsTrim v).data.length) && !containsSubstr (jsLower v) "error"

/-- The description acceptance test:
`description && description.trim().length > 50`. -/
def okDesc (v : String) : Bool :=
  v != "" && decide (50 < (jsTrim v).data.length)

/-- The CTA acceptance test: `cta && cta.length > 3 && cta.length < 100`. -/
def okCta (v : String) : Bool :=
  v != "" && decide (3 < v.data.length) && decide (v.data.length < 100)

/-- The price loop: per selector, the first element whose trimmed text
matches the price regex wins (`return false` breaks the inner `each`, the
outer loop breaks once `price` is set). -/
def priceScan (doc : Doc) : List String → String
  | [] => ""
  | sel :: rest =>
    match (doc.query sel).findSome? (fun e => firstPriceMatch (jsTrim e.text)) with
    | some p => p
    | none => priceScan doc rest

/-- The body of one benefits/testimonials `each` callback: trimmed text in
the open length band `(lo, hi)` is appended when the cap is not reached
and it is not already collected. -/
def collectStep (lo hi cap : Nat) (a : List String) (e : Element) : List String :=
  if jsTrim e.text != "" && decide (lo < (jsTrim e.text).data.length) &&
      decide ((jsTrim e.text).data.length < hi) && decide (a.length < cap) then
    if jsTrim e.text ∈ a then a else a ++ [jsTrim e.text]
  else a

/-- One benefits/testimonials `each` pass over the elements of one
selector. -/
def collectPass (lo hi cap : Nat) (es : List Element) (acc : List String) : List String :=
  es.foldl (collectStep lo hi cap) acc

/-- The benefits/testimonials selector loop, with the early outer break
once the cap is reached. -/
def collectItems (doc : Doc) (lo hi cap : Nat) (acc : List String) :
    List String → List String
  | [] => acc
  | sel :: rest =>
    let acc' := collectPass lo hi cap (doc.query sel) acc
    if cap ≤ acc'.length then acc' else collectItems doc lo hi cap acc' rest

/-- Model of `new URL(src, finalUrl).href` (WHATWG relative-URL
resolution, an external platform API), simplified to a join; only reached
for `src` not starting with `http`.  The exact joined value is irrelevant
to every claim; the JavaScript call can also throw for an unparseable
base, a path on which no record is produced at all. -/
def resolveUrl (src base : String) : String :=
  base ++ src

/-- The body of one image `each` callback: `src` present, truthy, not a
`data:` URI, cap 10; relative sources resolved against `finalUrl`. -/
def imageStep (finalUrl : String) (a : List Image) (e : Element) : List Image :=
  match e.attr "src" with
  | some src =>
    if src != "" && !containsSubstr src "data:" && decide (a.length < 10) then
      a ++ [⟨if jsStartsWith src "http" then src else resolveUrl src finalUrl,
             (e.attr "alt").getD ""⟩]
    else a
  | none => a

/-- The image `each` pass. -/
def collectImages (finalUrl : String) (es : List Element) : List Image :=
  es.foldl (imageStep finalUrl) []

/-- The video source of one `each` callback:
`$(video).attr('src') || $(video).find('source').attr('src')`. -/
def videoSrc (e : Element) : String :=
  match e.attr "src" with
  | some v => if v = "" then e.sourceSrc.getD "" else v
  | none => e.sourceSrc.getD ""

/-- The push guard and push of one video `each` callback. -/
def videoStep (a : List String) (e : Element) : List String :=
  if videoSrc e != "" && decide (a.length < 5) then a ++ [videoSrc e] else a

/-- The video `each` pass. -/
def collectVideos (es : List Element) : List String :=
  es.foldl videoStep []

/-- `$(sel).attr('content') || ''` for the metadata block. -/
def metaContent (doc : Doc) (sel : String) : String :=
  match (doc.query sel).head? with
  | some e => (e.attr "content").getD ""
  | none => ""

/-- The `titleSelectors` list. -/
def titleSelectors : List String :=
  ["h1:not(:contains(\"404\")):not(:contains(\"Error\")):not(:contains(\"Página não encontrada\"))",
   ".main-title, .product-title, .headline, .title",
   "[class*=\"title\"]:not(:contains(\"Error\"))",
   "meta[property=\"og:title\"]",
   "meta[name=\"twitter:title\"]",
   "title"]

/-- The `descSelectors` list. -/
def descSelectors : List String :=
  [".product-description p:first-child",
   ".description p:first-child",
   ".summary, .lead, .intro",
   "meta[name=\"description\"]",
   "meta[property=\"og:description\"]",
   "p:not(:contains(\"cookie\")):not(:contains(\"política\")):not(:empty)"]

/-- The `priceSelectors` list. -/
def priceSelectors : List String :=
  [".price, .valor, .preco, .cost, .amount",
   "[class*=\"price\"], [class*=\"valor\"], [class*=\"preco\"]"]

/-- The `benefitSelectors` list. -/
def benefitSelectors : List String :=
  [".benefits li, .vantagens li, .features li",
   "ul li:contains(\"✓\"), ul li:contains(\"✅\")",
   "li:contains(\"Transforme\"), li:contains(\"Alcance\"), li:contains(\"Aprenda\")"]

/-- The `testimonialSelectors` list. -/
def testimonialSelectors : List String :=
  [".testimonials, .depoimentos, .reviews",
   "*:contains(\"recomendo\"), *:contains(\"excelente\"), *:contains(\"funcionou\")"]

/-- The `ctaSelectors` list. -/
def ctaSelectors : List String :=
  ["a:contains(\"COMPRAR\"), button:contains(\"COMPRAR\")",
   "a:contains(\"QUERO\"), button:contains(\"QUERO\")",
   ".buy-button, .call-to-action, .btn-primary"]

/-- `UniversalWebExtractor.processExtractedHTML(html, finalUrl)`, with the
loaded cheerio document passed explicitly.  `extractionMethod` is left
empty here (the caller tags it afterwards). -/
def processExtractedHTML (doc : Doc) (finalUrl : String) : ContentRecord :=
  { url := finalUrl
    title := extractFirst doc attrOrText okTitle jsTrim titleSelectors
    description :=
      extractFirst doc attrOrText okDesc (fun v => jsSubstring (jsTrim v) 500) descSelectors
    price := priceScan doc priceSelectors
    benefits := collectItems doc 10 200 8 [] benefitSelectors
    testimonials := collectItems doc 20 300 5 [] testimonialSelectors
    cta := extractFirst doc (fun e => jsTrim e.text) okCta id ctaSelectors
    images := collectImages finalUrl (doc.query "img")
    videos := collectVideos (doc.query "video, iframe[src*=\"youtube\"], iframe[src*=\"vimeo\"]")
    contactEmail := doc.emailMatch
    contactPhone := doc.phoneMatch
    metadata :=
      { ogTitle := metaContent doc "meta[property=\"og:title\"]"
        ogDescription := metaContent doc "meta[property=\"og:description\"]"
        ogImage := metaContent doc "meta[property=\"og:image\"]"
        keywords := metaContent doc "meta[name=\"keywords\"]"
        author := metaContent doc "meta[name=\"author\"]" }
    extractionMethod := "" }

/-- `UniversalWebExtractor.getDefaultData(url)`: the canonical default
record returned when extraction fails entirely. -/
def getDefaultData (url : String) : ContentRecord :=
  { url := url
    title := "Produto Incrível - Transforme Sua Vida Hoje!"
    description := "Descubra este produto revolucionário que vai transformar completamente sua vida! Milhares de pessoas já alcançaram resultados extraordinários."
    price := "Oferta especial - Consulte o preço na página"
    benefits :=
      ["Resultados comprovados em tempo recorde",
       "Suporte especializado 24/7",
       "Garantia total de satisfação",
       "Método exclusivo e inovador",
       "Transformação completa garantida"]
    testimonials :=
      ["Produto excelente, mudou minha vida completamente!",
       "Recomendo para todos, resultados incríveis!",
       "Funcionou perfeitamente, superou minhas expectativas!"]
    cta := "QUERO TRANSFORMAR MINHA VIDA AGORA!"
    images := []
    videos := []
    contactEmail := none
    contactPhone := none
    metadata := ⟨"", "", "", "", ""⟩
    extractionMethod := "fallback" }

/-! ## Fetch strategies and the orchestrator -/

/-- The value each `extractWith*` strategy resolves to.  In the source the
two success fields are absent on failure and `error` is absent on
success; here all fields are always present and the irrelevant ones are
ignored. -/
structure FetchResult where
  success : Bool
  html : String
  finalUrl : String
  error : String
deriving Repr, DecidableEq

/-- The I/O environment of one `extractData` call: `fetch k s` is the
outcome of the `k`-th strategy invocation of the call when it runs
strategy `s`, and `load` is `cheerio.load` on the fetched markup. -/
structure Env where
  fetch : Nat → String → FetchResult
  load : String → Doc

/-- `CACHE_TTL = 3600000` (one hour, in milliseconds). -/
def CACHE_TTL : Nat := 3600000

/-- One entry of `dataCache`: `{data, timestamp}`. -/
structure CacheEntry where
  data : ContentRecord
  timestamp : Nat
deriving Repr, DecidableEq

/-- The in-memory `dataCache` `Map`, as an association list in which
insertion prepends (so lookup sees the newest binding, matching
`Map.set`). -/
abbrev Cache := List (String × CacheEntry)

/-- `dataCache.get(key)`. -/
def lookupCache (cache : Cache) (k : String) : Option CacheEntry :=
  (cache.find? (fun p => p.1 == k)).map Prod.snd

/-- Which strategy the `switch (method)` dispatches to: the three named
cases map to themselves and everything else falls to the `default`
(axios) branch. -/
def canonize (m : String) : String :=
  if m = "cloudscraper" then "cloudscraper"
  else if m = "puppeteer" then "puppeteer"
  else if m = "playwright" then "playwright"
  else "axios"

/-- The `for (const fallbackMethod of fallbackMethods)` loop: run the
strategies in order (invocation counter `k`), stop at the first success.
Returns the trace of executed strategies and, on success, the fallback
method name together with its result. -/
def runFallbacks (env : Env) : Nat → List String → List String × Option (String × FetchResult)
  | _, [] => ([], none)
  | k, s :: rest =>
    let r := env.fetch k (canonize s)
    if r.success then ([canonize s], some (s, r))
    else
      let (t, o) := runFallbacks env (k + 1) rest
      (canonize s :: t, o)

/-- The success epilogue of `extractData`: process the markup, tag
`extractionMethod`, write the cache entry. -/
def finishExtraction (env : Env) (cache : Cache) (now : Nat) (cacheKey m : String)
    (r : FetchResult) (trace : List String) : ContentRecord × Cache × List String :=
  let d0 := processExtractedHTML (env.load r.html) r.finalUrl
  let d := { d0 with extractionMethod := m }
  (d, (cacheKey, ⟨d, now⟩) :: cache, trace)

/-- `extractData` after the cache check: resolve `auto`, run the selected
strategy, then the fallback chain; on total failure (or a `new URL`
throw during `auto` resolution) the `catch` returns `getDefaultData(url)`
and the cache is untouched.  The third component is the trace of executed
strategies. -/
def extractDataCore (env : Env) (cache : Cache) (now : Nat) (url method0 : String) :
    ContentRecord × Cache × List String :=
  let cacheKey := url ++ "_" ++ method0
  let resolved := if method0 = "auto" then detectBestMethod url else some method0
  match resolved with
  | none => (getDefaultData url, cache, [])
  | some m =>
    let r0 := env.fetch 0 (canonize m)
    if r0.success then
      finishExtraction env cache now cacheKey m r0 [canonize m]
    else
      let fbs := (["axios", "cloudscraper", "puppeteer", "playwright"]).filter (fun x => x != m)
      match runFallbacks env 1 fbs with
      | (t, some (fm, r)) => finishExtraction env cache now cacheKey fm r (canonize m :: t)
      | (t, none) => (getDefaultData url, cache, canonize m :: t)

/-- `UniversalWebExtractor.extractData(url, method)`: cache check first
(fresh hit returns the cached record and executes nothing), then
`extractDataCore`. -/
def extractData (env : Env) (cache : Cache) (now : Nat) (url method0 : String) :
    ContentRecord × Cache × List String :=
  match lookupCache cache (url ++ "_" ++ method0) with
  | some e =>
    if now - e.timestamp < CACHE_TTL then (e.data, cache, [])
    else extractDataCore env cache now url method0
  | none => extractDataCore env cache now url method0

/-! ## Browser strategies and resource teardown

`extractWithPuppeteer` / `extractWithPlaywright` are sequences of awaited
browser operations inside `try { ... } catch { ... } finally { if (browser)
await browser.close(); }`.  Each operation is an I/O action that may
throw; an execution is modelled by the index of the first operation that
throws, if any. -/

/-- The I/O behaviour of one browser-strategy call: `failAt = some k`
means the `k`-th awaited operation throws (operation `0` is the launch);
`html`/`finalUrl` are what a fully successful run captures. -/
structure BrowserEnv where
  failAt : Option Nat
  html : String
  finalUrl : String

/-- The `k`-th awaited operation: its value, or the thrown error. -/
def browserStep (benv : BrowserEnv) (k : Nat) (v : α) : Except String α :=
  if benv.failAt = some k then Except.error "browser operation failed" else Except.ok v

/-- What one browser-strategy call leaves behind: the returned
`FetchResult`, whether a browser process was launched, and whether
`browser.close()` ran. -/
structure BrowserOutcome where
  result : FetchResult
  launched : Bool
  closed : Bool
deriving Repr, DecidableEq

/-- The `try` body of `extractWithPuppeteer` after the launch:
`newPage`(1), `setUserAgent`(2), `setViewport`(3),
`setRequestInterception`(4), `goto`(5), `waitForTimeout`(6),
`content`(7), `url`(8). -/
def puppeteerBody (benv : BrowserEnv) : Except String FetchResult := do
  let _ ← browserStep benv 1 ()
  let _ ← browserStep benv 2 ()
  let _ ← browserStep benv 3 ()
  let _ ← browserStep benv 4 ()
  let _ ← browserStep benv 5 ()
  let _ ← browserStep benv 6 ()
  let html ← browserStep benv 7 benv.html
  let finalUrl ← browserStep benv 8 benv.finalUrl
  pure ⟨true, html, finalUrl, ""⟩

/-- `UniversalWebExtractor.extractWithPuppeteer`: when the launch throws,
`browser` stays `null` and the `finally` closes nothing; otherwise the
`finally` runs `browser.close()` whether the body returned or threw. -/
def extractWithPuppeteer (benv : BrowserEnv) : BrowserOutcome :=
  match browserStep benv 0 () with
  | Except.error e => ⟨⟨false, "", "", e⟩, false, false⟩
  | Except.ok _ =>
    match puppeteerBody benv with
    | Except.ok r => ⟨r, true, true⟩
    | Except.error e => ⟨⟨false, "", "", e⟩, true, true⟩

/-- The `try` body of `extractWithPlaywright` after the launch:
`newContext`(1), `newPage`(2), `route`(3), `goto`(4),
`waitForTimeout`(5), `content`(6), `url`(7). -/
def playwrightBody (benv : BrowserEnv) : Except String FetchResult := do
  let _ ← browserStep benv 1 ()
  let _ ← browserStep benv 2 ()
  let _ ← browserStep benv 3 ()
  let _ ← browserStep benv 4 ()
  let _ ← browserStep benv 5 ()
  let html ← browserStep benv 6 benv.html
  let finalUrl ← browserStep benv 7 benv.finalUrl
  pure ⟨true, html, finalUrl, ""⟩

/-- `UniversalWebExtractor.extractWithPlaywright`: same teardown shape as
the puppeteer strategy. -/
def extractWithPlaywright (benv : BrowserEnv) : BrowserOutcome :=
  match browserStep benv 0 () with
  | Except.error e => ⟨⟨false, "", "", e⟩, false, false⟩
  | Except.ok _ =>
    match playwrightBody benv with
    | Except.ok r => ⟨r, true, true⟩
    | Except.error e => ⟨⟨false, "", "", e⟩, true, true⟩

/-- Elements of a list up to and including the first one satisfying `p`
(the whole list when none does). -/
def takeUntilIncl (p : α → Bool) : List α → List α
  | [] => []
  | x :: xs => if p x then [x] else x :: takeUntilIncl p xs

/-! ## Concrete fixtures used by counterexamples and witnesses -/

/-- A document in which no selector matches anything. -/
def emptyDoc : Doc :=
  { query := fun _ => [], emailMatch := none, phoneMatch := none }

/-- An environment in which every strategy invocation fails. -/
def envFail : Env :=
  { fetch := fun _ _ => ⟨false, "", "", "network error"⟩
    load := fun _ => emptyDoc }

/-- An environment in which every strategy invocation succeeds. -/
def envOk : Env :=
  { fetch := fun _ _ => ⟨true, "<html></html>", "https://final.example.com/", ""⟩
    load := fun _ => emptyDoc }

/-- An element carrying a Brazilian price inside surrounding text. -/
def priceElem : Element :=
  { text := "Apenas R$ 199,90 hoje", attr := fun _ => none, sourceSrc := none }

/-- A document whose only match is `priceElem` under the first price-class
selector. -/
def priceDoc : Doc :=
  { query := fun sel => if sel = ".price, .valor, .preco, .cost, .amount" then [priceElem] else []
    emailMatch := none
    phoneMatch := none }

/-! ## Bounded-accumulation lemmas -/

/-- A fold whose step either keeps the accumulator or, strictly below the
cap, appends one element never exceeds the cap. -/
theorem foldl_length_le {α β : Type} (cap : Nat) (step : List β → α → List β)
    (h : ∀ a x, step a x = a ∨ (a.length < cap ∧ ∃ y, step a x = a ++ [y])) :
    ∀ (es : List α) (acc : List β), acc.length ≤ cap → (es.foldl step acc).length ≤ cap := by
  intro es
  induction es with
  | nil => intro acc hacc; simpa using hacc
  | cons e es ih =>
    intro acc hacc
    simp only [List.foldl_cons]
    rcases h acc e with he | ⟨hlt, y, he⟩
    · rw [he]; exact ih acc hacc
    · rw [he]; exact ih _ (by simpa using hlt)

/-- A fold whose step either keeps the accumulator or appends an element
not already present preserves `Nodup`. -/
theorem foldl_nodup {α β : Type} [DecidableEq β] (step : List β → α → List β)
    (h : ∀ a x, step a x = a ∨ ∃ y, y ∉ a ∧ step a x = a ++ [y]) :
    ∀ (es : List α) (acc : List β), acc.Nodup → (es.foldl step acc).Nodup := by
  intro es
  induction es with
  | nil => intro acc hacc; simpa using hacc
  | cons e es ih =>
    intro acc hacc
    simp only [List.foldl_cons]
    rcases h acc e with he | ⟨y, hy, he⟩
    · rw [he]; exact ih acc hacc
    · rw [he]; exact ih _ (by simp [List.nodup_append, hacc, hy])

/-- `collectStep` either keeps the accumulator or appends below the cap. -/
theorem collectStep_cases (lo hi cap : Nat) (a : List String) (e : Element) :
    collectStep lo hi cap a e = a ∨
      (a.length < cap ∧ ∃ y, y ∉ a ∧ collectStep lo hi cap a e = a ++ [y]) := by
  unfold collectStep
  by_cases hb : (jsTrim e.text != "" && decide (lo < (jsTrim e.text).data.length) &&
      decide ((jsTrim e.text).data.length < hi) && decide (a.length < cap)) = true
  · rw [if_pos hb]
    by_cases hmem : jsTrim e.text ∈ a
    · left; rw [if_pos hmem]
    · right
      have hcap : a.length < cap := by
        have h' := hb
        simp only [Bool.and_eq_true, decide_eq_true_eq] at h'
        exact h'.2
      exact ⟨hcap, jsTrim e.text, hmem, by rw [if_neg hmem]⟩
  · left; rw [if_neg hb]

/-- `collectPass` respects the cap. -/
theorem collectPass_length (lo hi cap : Nat) (es : List Element) (acc : List String)
    (hacc : acc.length ≤ cap) : (collectPass lo hi cap es acc).length ≤ cap :=
  foldl_length_le cap (collectStep lo hi cap)
    (fun a x => (collectStep_cases lo hi cap a x).imp id (fun ⟨h1, y, _, h3⟩ => ⟨h1, y, h3⟩))
    es acc hacc

/-- `collectPass` preserves `Nodup`. -/
theorem collectPass_nodup (lo hi cap : Nat) (es : List Element) (acc : List String)
    (hacc : acc.Nodup) : (collectPass lo hi cap es acc).Nodup :=
  foldl_nodup (collectStep lo hi cap)
    (fun a x => (collectStep_cases lo hi cap a x).imp id (fun ⟨_, y, h2, h3⟩ => ⟨y, h2, h3⟩))
    es acc hacc

/-- The benefits/testimonials selector loop respects the cap. -/
theorem collectItems_length (doc : Doc) (lo hi cap : Nat) :
    ∀ (sels : List String) (acc : List String), acc.length ≤ cap →
      (collectItems doc lo hi cap acc sels).length ≤ cap := by
  intro sels
  induction sels with
  | nil => intro acc hacc; simpa [collectItems] using hacc
  | cons sel rest ih =>
    intro acc hacc
    have h1 := collectPass_length lo hi cap (doc.query sel) acc hacc
    simp only [collectItems]
    split
    · exact h1
    · exact ih _ h1

/-- The benefits/testimonials selector loop preserves `Nodup`. -/
theorem collectItems_nodup (doc : Doc) (lo hi cap : Nat) :
    ∀ (sels : List String) (acc : List String), acc.Nodup →
      (collectItems doc lo hi cap acc sels).Nodup := by
  intro sels
  induction sels with
  | nil => intro acc hacc; simpa [collectItems] using hacc
  | cons sel rest ih =>
    intro acc hacc
    have h1 := collectPass_nodup lo hi cap (doc.query sel) acc hacc
    simp only [collectItems]
    split
    · exact h1
    · exact ih _ h1

/-- `imageStep` either keeps the accumulator or appends below the cap. -/
theorem imageStep_cases (finalUrl : String) (a : List Image) (e : Element) :
    imageStep finalUrl a e = a ∨
      (a.length < 10 ∧ ∃ y, imageStep finalUrl a e = a ++ [y]) := by
  unfold imageStep
  cases hsrc : e.attr "src" with
  | none => left; rfl
  | some src =>
    by_cases hb : (src != "" && !containsSubstr src "data:" && decide (a.length < 10)) = true
    · right
      have hcap : a.length < 10 := by
        have h' := hb
        simp only [Bool.and_eq_true, decide_eq_true_eq] at h'
        exact h'.2
      exact ⟨hcap,
        ⟨if jsStartsWith src "http" then src else resolveUrl src finalUrl,
         (e.attr "alt").getD ""⟩,
        by dsimp only; rw [if_pos hb]⟩
    · left; dsimp only; rw [if_neg hb]

/-- `videoStep` either keeps the accumulator or appends below the cap. -/
theorem videoStep_cases (a : List String) (e : Element) :
    videoStep a e = a ∨ (a.length < 5 ∧ ∃ y, videoStep a e = a ++ [y]) := by
  unfold videoStep
  by_cases hb : (videoSrc e != "" && decide (a.length < 5)) = true
  · right
    have hcap : a.length < 5 := by
      have h' := hb
      simp only [Bool.and_eq_true, decide_eq_true_eq] at h'
      exact h'.2
    exact ⟨hcap, videoSrc e, by rw [if_pos hb]⟩
  · left; rw [if_neg hb]

/-- `collectImages` respects its cap of 10. -/
theorem collectImages_length (finalUrl : String) (es : List Element) :
    (collectImages finalUrl es).length ≤ 10 :=
  foldl_length_le 10 (imageStep finalUrl) (imageStep_cases finalUrl) es [] (by simp)

/-- `collectVideos` respects its cap of 5. -/
theorem collectVideos_length (es : List Element) : (collectVideos es).length ≤ 5 :=
  foldl_length_le 5 videoStep videoStep_cases es [] (by simp)

/-- Every value of `extractFirst` is either the default `""` or `post v`
for some accepted candidate `v`. -/
theorem extractFirst_cases (doc : Doc) (cand : Element → String) (ok : String → Bool)
    (post : String → String) :
    ∀ sels : List String, extractFirst doc cand ok post sels = "" ∨
      ∃ v, ok v = true ∧ extractFirst doc cand ok post sels = post v := by
  intro sels
  induction sels with
  | nil => left; rfl
  | cons sel rest ih =>
    simp only [extractFirst]
    rcases (doc.query sel).head? with _ | e
    · exact ih
    · by_cases hv : ok (cand e) = true
      · right; exact ⟨cand e, hv, by simp [hv]⟩
      · simpa [hv] using ih

/-- The description produced by `extractFirst` is at most `n` characters. -/
theorem extractFirst_substring_length (doc : Doc) (cand : Element → String)
    (ok : String → Bool) (n : Nat) (sels : List String) :
    (extractFirst doc cand ok (fun v => jsSubstring (jsTrim v) n) sels).length ≤ n := by
  rcases extractFirst_cases doc cand ok (fun v => jsSubstring (jsTrim v) n) sels with h | ⟨v, _, h⟩
  · rw [h]; exact Nat.zero_le n
  · rw [h]
    show ((jsTrim v).data.take n).length ≤ n
    exact List.length_take_le n _

/-- Claim C5: for every document and final URL, the record returned by
`processExtractedHTML` satisfies all size bounds and de-duplication:
at most 8 benefits, 5 testimonials, 10 images, 5 videos, a description of
at most 500 characters, and no duplicates within benefits or within
testimonials. -/
theorem processExtractedHTML_bounds (doc : Doc) (finalUrl : String) :
    (processExtractedHTML doc finalUrl).benefits.length ≤ 8 ∧
    (processExtractedHTML doc finalUrl).testimonials.length ≤ 5 ∧
    (processExtractedHTML doc finalUrl).images.length ≤ 10 ∧
    (processExtractedHTML doc finalUrl).videos.length ≤ 5 ∧
    (processExtractedHTML doc finalUrl).description.length ≤ 500 ∧
    (processExtractedHTML doc finalUrl).benefits.Nodup ∧
    (processExtractedHTML doc finalUrl).testimonials.Nodup := by
  refine ⟨?_, ?_, ?_, ?_, ?_, ?_, ?_⟩
  · exact collectItems_length doc 10 200 8 benefitSelectors [] (by simp)
  · exact collectItems_length doc 20 300 5 testimonialSelectors [] (by simp)
  · exact collectImages_length finalUrl _
  · exact collectVideos_length _
  · exact extractFirst_substring_length doc attrOrText okDesc 500 descSelectors
  · exact collectItems_nodup doc 10 200 8 benefitSelectors [] (by simp)
  · exact collectItems_nodup doc 20 300 5 testimonialSelectors [] (by simp)

/-! ## The price field -/

/-- `priceScan` over a selector list is the first regex match over the
concatenation of the selector results, in selector order then element
order. -/
theorem priceScan_eq_findSome (doc : Doc) :
    ∀ sels : List String,
      priceScan doc sels =
        ((sels.flatMap doc.query).findSome? (fun e => firstPriceMatch (jsTrim e.text))).getD "" := by
  intro sels
  induction sels with
  | nil => rfl
  | cons sel rest ih =>
    simp only [priceScan, List.flatMap_cons, List.findSome?_append]
    cases h : (doc.query sel).findSome? (fun e => firstPriceMatch (jsTrim e.text)) with
    | none => simpa [Option.or] using ih
    | some p => simp [Option.or]

/-- Claim C9: the extracted price is the first regex match over the price
pattern, taken in selector order then element order, and on a document
whose price-class element has text containing `R$ 199,90` the extracted
price is exactly the matched substring, not the element's full text. -/
theorem processExtractedHTML_price (doc : Doc) (finalUrl : String) :
    (processExtractedHTML doc finalUrl).price =
      ((priceSelectors.flatMap doc.query).findSome?
        (fun e => firstPriceMatch (jsTrim e.text))).getD "" ∧
    (processExtractedHTML priceDoc "https://x.example/").price = "R$ 199,90" ∧
    priceElem.text = "Apenas R$ 199,90 hoje" :=
  ⟨priceScan_eq_findSome doc priceSelectors, by decide, rfl⟩

/-! ## Strategy selection -/

/-- Claim C7: strategy selection lowercases the parsed hostname and tests
it against the three static substring tables in fixed priority order,
defaulting to plain axios. -/
theorem detectBestMethod_priority (url h : String) (hp : parseHostname url = some h) :
    (jsHeavySites.any (fun site => containsSubstr (jsLower h) site) = true →
      detectBestMethod url = some "playwright") ∧
    (jsHeavySites.any (fun site => containsSubstr (jsLower h) site) = false →
      cloudflareSites.any (fun site => containsSubstr (jsLower h) site) = true →
      detectBestMethod url = some "cloudscraper") ∧
    (jsHeavySites.any (fun site => containsSubstr (jsLower h) site) = false →
      cloudflareSites.any (fun site => containsSubstr (jsLower h) site) = false →
      botBlockingSites.any (fun site => containsSubstr (jsLower h) site) = true →
      detectBestMethod url = some "puppeteer") ∧
    (jsHeavySites.any (fun site => containsSubstr (jsLower h) site) = false →
      cloudflareSites.any (fun site => containsSubstr (jsLower h) site) = false →
      botBlockingSites.any (fun site => containsSubstr (jsLower h) site) = false →
      detectBestMethod url = some "axios") := by
  have hd : detectBestMethod url =
      some (if jsHeavySites.any (fun site => containsSubstr (jsLower h) site) then "playwright"
        else if cloudflareSites.any (fun site => containsSubstr (jsLower h) site) then
          "cloudscraper"
        else if botBlockingSites.any (fun site => containsSubstr (jsLower h) site) then
          "puppeteer"
        else "axios") := by
    unfold detectBestMethod; rw [hp]; rfl
  refine ⟨fun h1 => ?_, fun h1 h2 => ?_, fun h1 h2 h3 => ?_, fun h1 h2 h3 => ?_⟩
  · rw [hd]; simp [h1]
  · rw [hd]; simp [h1, h2]
  · rw [hd]; simp [h1, h2, h3]
  · rw [hd]; simp [h1, h2, h3]

/-- Witness for C7 at a concrete bot-defended retail URL. -/
theorem detectBestMethod_priority_witness :
    parseHostname "https://www.Amazon.com/dp/B0" = some "www.Amazon.com" ∧
    (jsHeavySites.any (fun site => containsSubstr (jsLower "www.Amazon.com") site) = false →
      cloudflareSites.any (fun site => containsSubstr (jsLower "www.Amazon.com") site) = false →
      botBlockingSites.any (fun site => containsSubstr (jsLower "www.Amazon.com") site) = true →
      detectBestMethod "https://www.Amazon.com/dp/B0" = some "puppeteer") :=
  ⟨by decide, (detectBestMethod_priority "https://www.Amazon.com/dp/B0" "www.Amazon.com"
      (by decide)).2.2.1⟩

/-! ## Browser teardown -/

/-- Claim C6: in both browser strategies, whenever a browser process has
been launched, `browser.close()` runs on every exit path — successful
capture, navigation/timeout error, or any thrown exception. -/
theorem browser_always_closed (benv : BrowserEnv) :
    ((extractWithPuppeteer benv).launched = true → (extractWithPuppeteer benv).closed = true) ∧
    ((extractWithPlaywright benv).launched = true → (extractWithPlaywright benv).closed = true) := by
  constructor
  · unfold extractWithPuppeteer
    cases browserStep benv 0 () with
    | error e => simp
    | ok _ => cases puppeteerBody benv with
      | ok r => simp
      | error e => simp
  · unfold extractWithPlaywright
    cases browserStep benv 0 () with
    | error e => simp
    | ok _ => cases playwrightBody benv with
      | ok r => simp
      | error e => simp

/-- Witness for C6: a run whose navigation (operation 5 / 4) throws still
launches and closes the browser in both strategies. -/
theorem browser_always_closed_witness :
    (extractWithPuppeteer ⟨some 5, "", ""⟩).launched = true ∧
    (extractWithPuppeteer ⟨some 5, "", ""⟩).closed = true ∧
    (extractWithPlaywright ⟨some 4, "", ""⟩).launched = true ∧
    (extractWithPlaywright ⟨some 4, "", ""⟩).closed = true :=
  ⟨by decide, (browser_always_closed ⟨some 5, "", ""⟩).1 (by decide),
   by decide, (browser_always_closed ⟨some 4, "", ""⟩).2 (by decide)⟩

/-! ## Orchestrator lemmas -/

theorem lookupCache_nil (k : String) : lookupCache [] k = none := rfl

theorem lookupCache_cons_self (k : String) (e : CacheEntry) (c : Cache) :
    lookupCache ((k, e) :: c) k = some e := by
  simp [lookupCache, List.find?]

/-- When every invocation fails, the fallback loop tries every remaining
strategy and reports no success. -/
theorem runFallbacks_allFail (env : Env) (hfail : ∀ k s, (env.fetch k s).success = false) :
    ∀ (ms : List String) (k : Nat), runFallbacks env k ms = (ms.map canonize, none) := by
  intro ms
  induction ms with
  | nil => intro k; rfl
  | cons s rest ih =>
    intro k
    simp [runFallbacks, hfail, ih (k + 1)]

/-- When every invocation fails, the core returns the default record and
leaves the cache unchanged, with the executed trace as stated. -/
theorem extractDataCore_allFail (env : Env) (cache : Cache) (now : Nat) (url m : String)
    (hfail : ∀ k s, (env.fetch k s).success = false) :
    (extractDataCore env cache now url m).1 = getDefaultData url ∧
    (extractDataCore env cache now url m).2.1 = cache := by
  unfold extractDataCore
  cases hres : (if m = "auto" then detectBestMethod url else some m) with
  | none => exact ⟨rfl, rfl⟩
  | some m' =>
    dsimp only
    rw [hfail 0 (canonize m'),
      runFallbacks_allFail env hfail
        ((["axios", "cloudscraper", "puppeteer", "playwright"]).filter (fun x => x != m')) 1]
    exact ⟨rfl, rfl⟩

/-- The core either produces the default record (tagged `fallback`) while
leaving the cache unchanged, or writes the record it returns at the front
of the cache keyed by the requested `(url, method)` key with the current
timestamp. -/
theorem extractDataCore_cases (env : Env) (cache : Cache) (now : Nat) (url m : String) :
    ((extractDataCore env cache now url m).1.extractionMethod = "fallback" ∧
      (extractDataCore env cache now url m).2.1 = cache) ∨
    (extractDataCore env cache now url m).2.1 =
      (url ++ "_" ++ m, ⟨(extractDataCore env cache now url m).1, now⟩) :: cache := by
  unfold extractDataCore
  cases hres : (if m = "auto" then detectBestMethod url else some m) with
  | none => exact Or.inl ⟨rfl, rfl⟩
  | some m' =>
    dsimp only
    by_cases hr0 : (env.fetch 0 (canonize m')).success = true
    · rw [if_pos hr0]
      exact Or.inr rfl
    · rw [if_neg hr0]
      cases hrf : runFallbacks env 1
          ((["axios", "cloudscraper", "puppeteer", "playwright"]).filter (fun x => x != m')) with
      | mk t o =>
        cases o with
        | none => exact Or.inl ⟨rfl, rfl⟩
        | some fr =>
          obtain ⟨fm, r⟩ := fr
          exact Or.inr rfl

/-- The fallback loop over canonically-named strategies is: execute in
order, stop at and including the first success; the successful method is
the first one whose invocation succeeds. -/
theorem runFallbacks_spec (env : Env) :
    ∀ (ms : List String) (k : Nat), (∀ s ∈ ms, canonize s = s) →
      runFallbacks env k ms =
        ((takeUntilIncl (fun x => (env.fetch x.1 x.2).success) (List.enumFrom k ms)).map Prod.snd,
         ((List.enumFrom k ms).find? (fun x => (env.fetch x.1 x.2).success)).map
           (fun x => (x.2, env.fetch x.1 x.2))) := by
  intro ms
  induction ms with
  | nil => intro k _; rfl
  | cons s rest ih =>
    intro k hc
    have hcs : canonize s = s := hc s (List.mem_cons_self s rest)
    simp only [runFallbacks, hcs, List.enumFrom, takeUntilIncl, List.find?]
    by_cases hr : (env.fetch k s).success = true
    · simp [hr]
    · rw [Bool.not_eq_true] at hr
      simp [hr, ih (k + 1) (fun x hx => hc x (List.mem_cons_of_mem s hx))]

/-! ## Claim C1: total failure returns the default record -/

/-- Counterexample to claim C1 as stated: when every strategy fails the
returned record is the fallback record, but its `images` and `videos`
lists are empty — the default template does not populate them. -/
theorem total_failure_media_lists_empty :
    (extractData envFail [] 0 "https://example.com/" "axios").1.extractionMethod = "fallback" ∧
    (extractData envFail [] 0 "https://example.com/" "axios").1.images = [] ∧
    (extractData envFail [] 0 "https://example.com/" "axios").1.videos = [] := by
  refine ⟨?_, ?_, ?_⟩ <;> decide

/-- Claim C1 (amended): if every strategy invocation fails, `extractData`
returns exactly the canonical default record for the originally-requested
URL: `extractionMethod = "fallback"`, `url` is the requested URL (not a
fetch-derived one), `benefits` and `testimonials` are non-empty per the
default template, while `images` and `videos` are empty per the default
template. -/
theorem extractData_total_failure (env : Env) (url m : String) (now : Nat)
    (hfail : ∀ k s, (env.fetch k s).success = false) :
    (extractData env [] now url m).1 = getDefaultData url ∧
    (extractData env [] now url m).1.extractionMethod = "fallback" ∧
    (extractData env [] now url m).1.url = url ∧
    (extractData env [] now url m).1.benefits ≠ [] ∧
    (extractData env [] now url m).1.testimonials ≠ [] ∧
    (extractData env [] now url m).1.images = [] ∧
    (extractData env [] now url m).1.videos = [] := by
  have hcore : extractData env [] now url m = extractDataCore env [] now url m := by
    unfold extractData
    rw [lookupCache_nil]
  have h1 := (extractDataCore_allFail env [] now url m hfail).1
  rw [hcore, h1]
  exact ⟨rfl, rfl, rfl, by simp [getDefaultData], by simp [getDefaultData], rfl, rfl⟩

/-- Witness for C1 at a concrete failing environment. -/
theorem extractData_total_failure_witness :
    (∀ k s, (envFail.fetch k s).success = false) ∧
    (extractData envFail [] 0 "https://w.example/" "auto").1 = getDefaultData "https://w.example/" :=
  ⟨fun _ _ => rfl,
   (extractData_total_failure envFail "https://w.example/" "auto" 0 (fun _ _ => rfl)).1⟩

/-! ## Claim C8: a totally-failed extraction writes nothing to the cache -/

/-- Claim C8: when every strategy fails, the default record is not written
into the cache — the cache is left exactly as it was, so a subsequent call
for the same (or any) key sees the same cache and re-attempts the fetch
strategies rather than hitting a cached fallback record. -/
theorem extractData_failure_leaves_cache (env : Env) (cache : Cache) (now : Nat)
    (url m : String) (hfail : ∀ k s, (env.fetch k s).success = false) :
    (extractData env cache now url m).2.1 = cache ∧
    (lookupCache cache (url ++ "_" ++ m) = none → m ≠ "auto" →
      (extractData env cache now url m).2.2 ≠ []) := by
  constructor
  · unfold extractData
    cases hl : lookupCache cache (url ++ "_" ++ m) with
    | none => exact (extractDataCore_allFail env cache now url m hfail).2
    | some e =>
      dsimp only
      by_cases hf : now - e.timestamp < CACHE_TTL
      · rw [if_pos hf]
      · rw [if_neg hf]
        exact (extractDataCore_allFail env cache now url m hfail).2
  · intro hl hm
    unfold extractData
    rw [hl]
    unfold extractDataCore
    dsimp only
    rw [if_neg hm]
    dsimp only
    rw [hfail 0 (canonize m),
      runFallbacks_allFail env hfail
        ((["axios", "cloudscraper", "puppeteer", "playwright"]).filter (fun x => x != m)) 1]
    simp

/-- Witness for C8: failing environment, a non-empty unrelated cache. -/
theorem extractData_failure_leaves_cache_witness :
    (∀ k s, (envFail.fetch k s).success = false) ∧
    (extractData envFail [("other", ⟨getDefaultData "o", 0⟩)] 5 "https://w.example/" "axios").2.1 =
      [("other", ⟨getDefaultData "o", 0⟩)] ∧
    (lookupCache [("other", ⟨getDefaultData "o", 0⟩)] ("https://w.example/" ++ "_" ++ "axios") =
        none →
      "axios" ≠ "auto" →
      (extractData envFail [("other", ⟨getDefaultData "o", 0⟩)] 5 "https://w.example/"
        "axios").2.2 ≠ []) :=
  ⟨fun _ _ => rfl,
   (extractData_failure_leaves_cache envFail [("other", ⟨getDefaultData "o", 0⟩)] 5
      "https://w.example/" "axios" (fun _ _ => rfl)).1,
   (extractData_failure_leaves_cache envFail [("other", ⟨getDefaultData "o", 0⟩)] 5
      "https://w.example/" "axios" (fun _ _ => rfl)).2⟩

/-! ## Claim C2: second call within the TTL is a cache hit -/

/-- Counterexample to claim C2 as stated: when every strategy fails, the
first call caches nothing, so the second call within the TTL executes all
four strategies again — eight strategy invocations across the two calls,
not at most one. -/
theorem second_call_can_refetch :
    (extractData envFail [] 0 "https://example.com/" "axios").2.2.length = 4 ∧
    (extractData envFail
        ((extractData envFail [] 0 "https://example.com/" "axios").2.1) 60000
        "https://example.com/" "axios").2.2.length = 4 := by
  refine ⟨?_, ?_⟩ <;> decide

/-- Claim C2 (amended): if the first call misses the cache and succeeds
(its record's `extractionMethod` is not `"fallback"`, i.e. some strategy
produced markup), then a second call within the TTL window returns exactly
the record cached by the first call, leaves the cache unchanged, and
executes no fetch strategy. -/
theorem extractData_second_call_cached (env : Env) (cache : Cache) (now₁ now₂ : Nat)
    (url m : String)
    (hmiss : lookupCache cache (url ++ "_" ++ m) = none)
    (hfresh : now₂ - now₁ < CACHE_TTL)
    (hok : (extractData env cache now₁ url m).1.extractionMethod ≠ "fallback") :
    extractData env ((extractData env cache now₁ url m).2.1) now₂ url m =
      ((extractData env cache now₁ url m).1,
       (extractData env cache now₁ url m).2.1, []) := by
  have hcore : extractData env cache now₁ url m = extractDataCore env cache now₁ url m := by
    unfold extractData
    rw [hmiss]
  rw [hcore] at hok ⊢
  rcases extractDataCore_cases env cache now₁ url m with ⟨hfb, _⟩ | hw
  · exact absurd hfb hok
  · rw [hw]
    unfold extractData
    rw [lookupCache_cons_self]
    dsimp only
    rw [if_pos hfresh]

/-- Witness for C2 at an always-succeeding environment. -/
theorem extractData_second_call_cached_witness :
    lookupCache [] ("https://w.example/" ++ "_" ++ "axios") = none ∧
    10 - 0 < CACHE_TTL ∧
    (extractData envOk [] 0 "https://w.example/" "axios").1.extractionMethod ≠ "fallback" ∧
    extractData envOk ((extractData envOk [] 0 "https://w.example/" "axios").2.1) 10
        "https://w.example/" "axios" =
      ((extractData envOk [] 0 "https://w.example/" "axios").1,
       (extractData envOk [] 0 "https://w.example/" "axios").2.1, []) :=
  ⟨rfl, by decide, by decide,
   extractData_second_call_cached envOk [] 0 10 "https://w.example/" "axios" rfl (by decide)
     (by decide)⟩

/-! ## Claim C4: invalid URLs -/

/-- Counterexample to claim C4 as stated: for a syntactically invalid URL,
`extractData` does not propagate an error — the `new URL` throw during
`auto` resolution is swallowed by the surrounding `catch` and the default
content record is returned to the caller. -/
theorem invalid_url_returns_record :
    extractData envFail [] 0 "not a url" "auto" = (getDefaultData "not a url", [], []) ∧
    (getDefaultData "not a url").extractionMethod = "fallback" := by
  refine ⟨?_, ?_⟩ <;> decide

/-- Claim C4 (amended): for a URL whose parse fails, an `auto`-method call
that misses the cache returns the default record with the cache unchanged
and no strategy executed; no error reaches the caller (the function is
total). -/
theorem extractData_invalid_url (env : Env) (cache : Cache) (now : Nat) (url : String)
    (hbad : parseHostname url = none)
    (hmiss : lookupCache cache (url ++ "_" ++ "auto") = none) :
    extractData env cache now url "auto" = (getDefaultData url, cache, []) := by
  unfold extractData
  rw [hmiss]
  unfold extractDataCore
  dsimp only
  rw [if_pos rfl]
  unfold detectBestMethod
  rw [hbad]
  rfl

/-- Witness for C4 at a concrete malformed URL. -/
theorem extractData_invalid_url_witness :
    parseHostname "not a url" = none ∧
    lookupCache [] ("not a url" ++ "_" ++ "auto") = none ∧
    extractData envOk [] 3 "not a url" "auto" = (getDefaultData "not a url", [], []) :=
  ⟨by decide, rfl, extractData_invalid_url envOk [] 3 "not a url" (by decide) rfl⟩

/-! ## Claim C3: fallback order -/

/-- Counterexample to claim C3 as stated: with the unrecognized method
string `"foo"` the first executed strategy is axios (switch default), yet
the fallback chain — which filters only the literal method string — runs
axios again: the chain does not exclude the strategy already tried. -/
theorem fallback_chain_repeats_axios :
    (extractData envFail [] 0 "https://example.com/" "foo").2.2 =
      ["axios", "axios", "cloudscraper", "puppeteer", "playwright"] ∧
    "axios" ∈ (extractData envFail [] 0 "https://example.com/" "foo").2.2.tail := by
  refine ⟨?_, ?_⟩ <;> decide

/-- Claim C3 (amended): for a method argument among the four strategy
names, when the first executed strategy fails the remaining strategies are
attempted sequentially in the fixed order
`["axios", "cloudscraper", "puppeteer", "playwright"]` with the
already-tried one excluded, stopping at (and including) the first success,
and `extractionMethod` is the strategy that produced the markup (or
`"fallback"` when none did). -/
theorem extractData_fallback_order (env : Env) (url m : String) (now : Nat)
    (hm : m = "axios" ∨ m = "cloudscraper" ∨ m = "puppeteer" ∨ m = "playwright")
    (hfail : (env.fetch 0 m).success = false) :
    (extractData env [] now url m).2.2 =
      m :: (takeUntilIncl (fun x => (env.fetch x.1 x.2).success)
        (List.enumFrom 1 ((["axios", "cloudscraper", "puppeteer", "playwright"]).filter
          (fun x => x != m)))).map Prod.snd ∧
    (extractData env [] now url m).1.extractionMethod =
      (((List.enumFrom 1 ((["axios", "cloudscraper", "puppeteer", "playwright"]).filter
          (fun x => x != m))).find? (fun x => (env.fetch x.1 x.2).success)).map
        Prod.snd).getD "fallback" := by
  have hauto : ¬ m = "auto" := by rcases hm with rfl | rfl | rfl | rfl <;> decide
  have hcan : canonize m = m := by rcases hm with rfl | rfl | rfl | rfl <;> decide
  have hsub : ∀ s ∈ (["axios", "cloudscraper", "puppeteer", "playwright"]).filter
      (fun x => x != m), canonize s = s := by
    intro s hs
    have hs' : s ∈ ["axios", "cloudscraper", "puppeteer", "playwright"] :=
      List.mem_of_mem_filter hs
    fin_cases hs' <;> decide
  unfold extractData
  rw [lookupCache_nil]
  unfold extractDataCore
  dsimp only
  rw [if_neg hauto]
  dsimp only
  simp only [hcan, hfail, Bool.false_eq_true, if_false]
  rw [runFallbacks_spec env _ 1 hsub]
  cases hfind : (List.enumFrom 1 ((["axios", "cloudscraper", "puppeteer", "playwright"]).filter
      (fun x => x != m))).find? (fun x => (env.fetch x.1 x.2).success) with
  | none => exact ⟨rfl, rfl⟩
  | some x =>
    obtain ⟨k, s⟩ := x
    exact ⟨rfl, rfl⟩

/-- Witness for C3: method `axios` in a failing environment — the chain is
the remaining three strategies in order and the result is the fallback
record. -/
theorem extractData_fallback_order_witness :
    (("axios" : String) = "axios" ∨ ("axios" : String) = "cloudscraper" ∨
      ("axios" : String) = "puppeteer" ∨ ("axios" : String) = "playwright") ∧
    (envFail.fetch 0 "axios").success = false ∧
    ((extractData envFail [] 7 "https://w.example/" "axios").2.2 =
      "axios" :: (takeUntilIncl (fun x => (envFail.fetch x.1 x.2).success)
        (List.enumFrom 1 ((["axios", "cloudscraper", "puppeteer", "playwright"]).filter
          (fun x => x != "axios")))).map Prod.snd ∧
    (extractData envFail [] 7 "https://w.example/" "axios").1.extractionMethod =
      (((List.enumFrom 1 ((["axios", "cloudscraper", "puppeteer", "playwright"]).filter
          (fun x => x != "axios"))).find? (fun x => (envFail.fetch x.1 x.2).success)).map
        Prod.snd).getD "fallback") :=
  ⟨Or.inl rfl, rfl,
   extractData_fallback_order envFail "https://w.example/" "axios" 7 (Or.inl rfl) rfl⟩

/-! ## Claim C10: unrecognized method strings -/

/-- Claim C10: any method outside
`{"auto", "cloudscraper", "puppeteer", "playwright"}` executes axios first
via the switch default; and when the method string is not literally
`"axios"` and that first attempt fails, the fallback chain (which filters
only the literal method string) runs axios a second time. -/
theorem extractData_unknown_method (env : Env) (url m : String) (now : Nat)
    (hm : ¬ (m = "auto" ∨ m = "cloudscraper" ∨ m = "puppeteer" ∨ m = "playwright")) :
    (extractData env [] now url m).2.2.head? = some "axios" ∧
    (m ≠ "axios" → (env.fetch 0 "axios").success = false →
      (extractData env [] now url m).2.2.take 2 = ["axios", "axios"]) := by
  push_neg at hm
  obtain ⟨h1, h2, h3, h4⟩ := hm
  have hcan : canonize m = "axios" := by
    unfold canonize
    rw [if_neg h2, if_neg h3, if_neg h4]
  have hcore : extractData env [] now url m = extractDataCore env [] now url m := by
    unfold extractData
    rw [lookupCache_nil]
  rw [hcore]
  unfold extractDataCore
  dsimp only
  rw [if_neg h1]
  dsimp only
  simp only [hcan]
  constructor
  · by_cases hr0 : (env.fetch 0 "axios").success = true
    · rw [if_pos hr0]
      rfl
    · rw [if_neg hr0]
      cases hrf : runFallbacks env 1
          ((["axios", "cloudscraper", "puppeteer", "playwright"]).filter (fun x => x != m)) with
      | mk t o =>
        cases o with
        | none => rfl
        | some fr =>
          obtain ⟨fm, r⟩ := fr
          rfl
  · intro hax hfail0
    have hfbs : (["axios", "cloudscraper", "puppeteer", "playwright"]).filter
        (fun x => x != m) = ["axios", "cloudscraper", "puppeteer", "playwright"] := by
      rw [List.filter_eq_self]
      intro a ha
      fin_cases ha
      · simpa [bne_iff_ne] using Ne.symm hax
      · simpa [bne_iff_ne] using Ne.symm h2
      · simpa [bne_iff_ne] using Ne.symm h3
      · simpa [bne_iff_ne] using Ne.symm h4
    simp only [hfail0, Bool.false_eq_true, if_false, hfbs]
    have hstep : runFallbacks env 1 ["axios", "cloudscraper", "puppeteer", "playwright"] =
        (if (env.fetch 1 "axios").success then
          (["axios"], some ("axios", env.fetch 1 "axios"))
        else
          (("axios" : String) ::
            (runFallbacks env 2 ["cloudscraper", "puppeteer", "playwright"]).1,
           (runFallbacks env 2 ["cloudscraper", "puppeteer", "playwright"]).2)) := by
      simp [runFallbacks, canonize]
    rw [hstep]
    by_cases hr1 : (env.fetch 1 "axios").success = true
    · rw [if_pos hr1]
      rfl
    · rw [if_neg hr1]
      cases hrf : runFallbacks env 2 ["cloudscraper", "puppeteer", "playwright"] with
      | mk t o =>
        cases o with
        | none => rfl
        | some fr =>
          obtain ⟨fm, r⟩ := fr
          rfl

/-- Witness for C10 at the unrecognized method string `"foo"`. -/
theorem extractData_unknown_method_witness :
    (¬ (("foo" : String) = "auto" ∨ ("foo" : String) = "cloudscraper" ∨
        ("foo" : String) = "puppeteer" ∨ ("foo" : String) = "playwright")) ∧
    ((extractData envFail [] 2 "https://w.example/" "foo").2.2.head? = some "axios" ∧
      (("foo" : String) ≠ "axios" → (envFail.fetch 0 "axios").success = false →
        (extractData envFail [] 2 "https://w.example/" "foo").2.2.take 2 =
          ["axios", "axios"])) :=
  ⟨by decide,
   extractData_unknown_method envFail "https://w.example/" "foo" 2 (by decide)⟩

end LinkMagico
